import Mathlib

/-!
Shallow embedding of the Simple-QA-EMNLP-2018 repository sources:
  src/lib/nn/attention.py        (class Attention)
  src/lib/utils.py               (resplit_datasets, pad_tensor, pad_batch)
  src/lib/datasets/zero_to_zero.py (zero_to_zero)
  src/scripts/python/train_seq_to_label.py (train, __main__)
Python lists become Lean lists, tensors become Fin-indexed real-valued
functions, dicts (dataset rows) become association lists, and fallible
code returns Option/Except.
-/

open scoped BigOperators

namespace SimpleQA

/-- Modelled from the spec: `lib.text_encoders.PADDING_INDEX`, the reserved
padding index of the encoders (its defining module is not under src/; the
claims use the value only symbolically). -/
def PADDING_INDEX : ℤ := 0

/-- src/lib/utils.py lines 223-233, `pad_tensor`: append `length - len(tensor)`
copies of PADDING_INDEX (a negative count yields the empty list in Python,
matching truncated subtraction on ℕ). -/
def pad_tensor (tensor : List ℤ) (length : ℕ) : List ℤ :=
  tensor ++ List.replicate (length - tensor.length) PADDING_INDEX

/-- The Python local `max_len = max(lengths)` of `pad_batch`; for a non-empty
batch `foldr max 0` agrees with Python `max` on the natural-number lengths. -/
def maxLen (batch : List (List ℤ)) : ℕ :=
  (batch.map List.length).foldr max 0

/-- src/lib/utils.py lines 236-248, `pad_batch`. Python `max([])` raises
ValueError, embedded as `none` on the empty batch. -/
def pad_batch (batch : List (List ℤ)) : Option (List (List ℤ) × List ℕ) :=
  match batch with
  | [] => none
  | _ :: _ =>
    some (batch.map (fun row => pad_tensor row (maxLen batch)), batch.map List.length)

/-- The row `{'source': str(0), 'target': str(0)}` built by zero_to_zero,
src/lib/datasets/zero_to_zero.py line 15. -/
def zeroRow : List (String × String) :=
  [("source", "0"), ("target", "0")]

/-- Result type of zero_to_zero: Python returns `ret[0]` when the list has
exactly one dataset and `tuple(ret)` otherwise (lines 18-21). -/
inductive ZeroToZeroResult where
  | single : List (List (String × String)) → ZeroToZeroResult
  | multiple : List (List (List (String × String))) → ZeroToZeroResult
  deriving DecidableEq

/-- src/lib/datasets/zero_to_zero.py lines 4-21, `zero_to_zero`. A Dataset is
modelled from the spec as its ordered list of rows (`lib.datasets.dataset` is
not under src/); `seq_max_length` is accepted and unused, as in the source. -/
def zero_to_zero (train dev test : Bool) (train_rows dev_rows test_rows : ℕ)
    (seq_max_length : ℕ := 10) : ZeroToZeroResult :=
  let _ := seq_max_length
  let ret := ([(train, train_rows), (dev, dev_rows), (test, test_rows)].filter
      (fun p => p.1)).map (fun p => List.replicate p.2 zeroRow)
  match ret with
  | [d] => ZeroToZeroResult.single d
  | ds => ZeroToZeroResult.multiple ds

/-- Stated from the claim wording for C10: a single Dataset when exactly one of
train/dev/test is requested, otherwise a tuple in (train, dev, test) order,
each dataset holding the requested number of zeroRow rows. -/
def zeroToZeroSpec (train dev test : Bool) (train_rows dev_rows test_rows : ℕ) :
    ZeroToZeroResult :=
  match train, dev, test with
  | true, false, false => ZeroToZeroResult.single (List.replicate train_rows zeroRow)
  | false, true, false => ZeroToZeroResult.single (List.replicate dev_rows zeroRow)
  | false, false, true => ZeroToZeroResult.single (List.replicate test_rows zeroRow)
  | _, _, _ =>
      ZeroToZeroResult.multiple
        ((if train then [List.replicate train_rows zeroRow] else []) ++
         (if dev then [List.replicate dev_rows zeroRow] else []) ++
         (if test then [List.replicate test_rows zeroRow] else []))

/-- Modelled from the spec and the Python stdlib contract used at
src/lib/utils.py line 40: `random.Random(random_seed)` derives its internal
state from the seed alone when a seed is supplied, and from ambient OS entropy
when the seed is None. The entropy argument stands for that ambient state. -/
def mkRandomState (random_seed : Option ℤ) (entropy : ℕ) : ℕ :=
  match random_seed with
  | some s => s.natAbs % 2 ^ 32
  | none => entropy

/-- Modelled from the Python stdlib: one step of the pseudo-random generator
behind `random.Random` (the exact generator is external to the repository; a
linear congruential step keeps the model executable). -/
def rngNext (s : ℕ) : ℕ := (1103515245 * s + 12345) % 2 ^ 31

/-- Swap the entries at positions i and j of a list (no-op when either index
is out of range), as `x[i], x[j] = x[j], x[i]` does in Python. -/
def listSwap {α : Type} (l : List α) (i j : ℕ) : List α :=
  match l.get? i, l.get? j with
  | some a, some b => (l.set i b).set j a
  | _, _ => l

/-- One iteration of the Fisher-Yates loop of `random.Random.shuffle`: draw an
index j ≤ i from the generator state and swap positions i and j. -/
def shuffleStep {α : Type} (p : List α × ℕ) (i : ℕ) : List α × ℕ :=
  let st := rngNext p.2
  (listSwap p.1 i (st % (i + 1)), st)

/-- Modelled from the Python stdlib: `random.Random.shuffle`, iterating i from
len-1 down to 1 and swapping with a drawn index j ≤ i. -/
def pyShuffle {α : Type} (seedState : ℕ) (l : List α) : List α :=
  (((List.range' 1 (l.length - 1)).reverse).foldl shuffleStep (l, seedState)).1

/-- Python `round` (banker's rounding, half to even) on a rational, used to
model `round(len(concat) * cut)` at src/lib/utils.py line 44. -/
def pyRound (q : ℚ) : ℤ :=
  let f := ⌊q⌋
  let r := q - f
  if r < 1 / 2 then f
  else if 1 / 2 < r then f + 1
  else if f % 2 = 0 then f else f + 1

/-- src/lib/utils.py lines 20-45, `resplit_datasets`: concatenate the two row
lists, shuffle with a fresh `random.Random(random_seed)`, and split either at
`len(dataset)` (cut None) or at `max(min(round(len(concat) * cut), len(concat)), 0)`.
The `entropy` argument carries the ambient OS entropy consumed only when
`random_seed` is None (see `mkRandomState`). -/
def resplit_datasets {α : Type} (dataset other_dataset : List α)
    (random_seed : Option ℤ) (cut : Option ℚ) (entropy : ℕ) : List α × List α :=
  let concat := dataset ++ other_dataset
  let shuffled := pyShuffle (mkRandomState random_seed entropy) concat
  match cut with
  | none => (shuffled.take dataset.length, shuffled.drop dataset.length)
  | some c =>
    let cutN := (max (min (pyRound ((concat.length : ℚ) * c)) (concat.length : ℤ)) 0).toNat
    (shuffled.take cutN, shuffled.drop cutN)

/-- src/scripts/python/train_seq_to_label.py lines 103-106: the body of the
encoding loop on one row, `row['text'] = text_encoder.encode(row['text'])` then
`row['label'] = label_encoder.encode(row['label'])`. A row dict is modelled as
an insertion-ordered association list; updating an existing key rewrites its
value in place and keeps the key order, as in Python. -/
def encodeRow {V : Type} (textEncode labelEncode : V → V)
    (row : List (String × V)) : List (String × V) :=
  row.map fun kv =>
    if kv.1 = "text" then (kv.1, textEncode kv.2)
    else if kv.1 = "label" then (kv.1, labelEncode kv.2)
    else kv

/-- src/scripts/python/train_seq_to_label.py lines 103-106: the encoding loop
over one dataset (`for row in dataset: ...`); it runs once for train_dataset
and once for dev_dataset. Iteration order over a Dataset is modelled from the
spec as the order of its rows. -/
def encodeDataset {V : Type} (textEncode labelEncode : V → V)
    (ds : List (List (String × V))) : List (List (String × V)) :=
  ds.map (encodeRow textEncode labelEncode)

/-- Modelled from the spec: a `lib.checkpoint.Checkpoint` (not under src/) is a
snapshot holding the model and the two encoders used by the training script. -/
structure Checkpoint (M E : Type) where
  model : M
  input_encoder : E
  output_encoder : E

/-- Modelled from the spec: `lib.utils.setup_training` (not under src/) loads
and returns the checkpoint at `checkpoint_path` when one is supplied and
returns None otherwise; `load` stands for the external deserialization. -/
def setup_training {M E : Type} (load : String → Checkpoint M E)
    (checkpoint_path : Option String) : Option (Checkpoint M E) :=
  checkpoint_path.map load

/-- The argparse declaration of src/scripts/python/train_seq_to_label.py lines
212-214: the list of (argument name, default) pairs the parser accepts. -/
def cliArgSpecs : List (String × Option String) :=
  [("--checkpoint_path", none)]

/-- Python `os.path.dirname` for ordinary slash-separated paths (external to
the repository), used at line 216-217 of the training script. -/
def dirname (p : String) : String :=
  String.intercalate "/" (p.splitOn "/").dropLast

/-- src/scripts/python/train_seq_to_label.py lines 216-217: the save directory
is the directory of the checkpoint when `args.checkpoint_path` is truthy (a
non-empty string) and the default directory otherwise. -/
def mainSaveDirectory (defaultDir : String) (checkpoint_path : Option String) : String :=
  match checkpoint_path with
  | some p => if p = "" then defaultDir else dirname p
  | none => defaultDir

/-- src/scripts/python/train_seq_to_label.py lines 109-112: take the model from
the loaded checkpoint when resuming, else the freshly initialized one. -/
def selectModel {M E : Type} (checkpoint : Option (Checkpoint M E)) (fresh : M) : M :=
  match checkpoint with
  | some c => c.model
  | none => fresh

/-- src/scripts/python/train_seq_to_label.py lines 98-102: take the encoders
from the loaded checkpoint when resuming, else build fresh ones. -/
def selectEncoders {M E : Type} (checkpoint : Option (Checkpoint M E))
    (fresh_text fresh_label : E) : E × E :=
  match checkpoint with
  | some c => (c.input_encoder, c.output_encoder)
  | none => (fresh_text, fresh_label)

/-- Observable events of one run of `train()` in
src/scripts/python/train_seq_to_label.py, in the order the statements execute;
each event records the epoch (and batch index where applicable). -/
inductive TrainEvent where
  | zeroGrad : ℕ → ℕ → TrainEvent
  | forwardPass : ℕ → ℕ → TrainEvent
  | lossComputation : ℕ → ℕ → TrainEvent
  | backwardPass : ℕ → ℕ → TrainEvent
  | optimizerStep : ℕ → ℕ → TrainEvent
  | saveCheckpoint : ℕ → TrainEvent
  | evaluateDev : ℕ → TrainEvent
  deriving DecidableEq

/-- Lines 156-164 of the training script: the events of one training batch, in
statement order (optimizer.zero_grad; model(...); criterion(...); loss.backward;
optimizer.step). -/
def batchEvents (e i : ℕ) : List TrainEvent :=
  [TrainEvent.zeroGrad e i, TrainEvent.forwardPass e i, TrainEvent.lossComputation e i,
   TrainEvent.backwardPass e i, TrainEvent.optimizerStep e i]

/-- Lines 145-198: the events of one epoch - all training batches, then the
Checkpoint.save call (lines 166-172), then the evaluation on the development
split (lines 174-198). `nBatches e` is the number of batches the sampler
yields in epoch e. -/
def epochTrace (nBatches : ℕ → ℕ) (e : ℕ) : List TrainEvent :=
  ((List.range (nBatches e)).map (batchEvents e)).flatten ++
    [TrainEvent.saveCheckpoint e, TrainEvent.evaluateDev e]

/-- Lines 145-198: the full event trace of `for epoch in range(epochs)`. -/
def trainTrace (epochs : ℕ) (nBatches : ℕ → ℕ) : List TrainEvent :=
  ((List.range epochs).map (epochTrace nBatches)).flatten

/-- State of src/lib/nn/attention.py class Attention after __init__ with the
given `dimensions`: the attention_type string and the two bias-free linear
layers. `linear_in` is a dimensions x dimensions weight matrix (only read when
attention_type is "general"); `linear_out` maps the concatenated 2*dimensions
features to dimensions, its column index modelled as `Fin dims ⊕ Fin dims`
with `inl` the mix block and `inr` the input block, matching
`torch.cat((mix, input_), dim=2)` at line 73. The `mask` attribute is None
throughout (its default; lines 60-61 are then skipped), and float tensors are
idealized as real numbers. -/
structure Attention (dims : ℕ) where
  attention_type : String
  linear_in : Fin dims → Fin dims → ℝ
  linear_out : Fin dims → (Fin dims ⊕ Fin dims) → ℝ

/-- src/lib/nn/attention.py lines 25-35, the validation in Attention.__init__:
`assert self.attention_type in ["dot", "general"]` raises AssertionError
("Invalid attention type selected.") for any other string; otherwise
construction proceeds (the random initialization of the layer weights is
external). -/
def Attention.init (dimensions : ℕ) (attention_type : String) : Except String Unit :=
  let _ := dimensions
  if attention_type = "dot" ∨ attention_type = "general" then Except.ok ()
  else Except.error "Invalid attention type selected."

/-- src/lib/nn/attention.py lines 52-55: when attention_type is "general" the
input is reassigned to `self.linear_in(input_)` (an nn.Linear without bias:
row d of the result is the dot of weight row d with the input vector); for
"dot" the input is left as is. The flattening view at lines 53 and 55 is an
identity on the (batch, output position) indexing. -/
noncomputable def Attention.projectInput {dims batch outLen : ℕ} (A : Attention dims)
    (input_ : Fin batch → Fin outLen → Fin dims → ℝ) :
    Fin batch → Fin outLen → Fin dims → ℝ :=
  if A.attention_type = "general" then
    fun b o d => ∑ k, A.linear_in d k * input_ b o k
  else input_

/-- src/lib/nn/attention.py line 59: the Python local `attention_scores`,
`torch.bmm(input_, context.transpose(1, 2))` - entry (b, o, j) is the sum over
the feature axis of (possibly projected) input times context. -/
noncomputable def Attention.attentionScores {dims batch outLen inLen : ℕ}
    (A : Attention dims)
    (input_ : Fin batch → Fin outLen → Fin dims → ℝ)
    (context : Fin batch → Fin inLen → Fin dims → ℝ) :
    Fin batch → Fin outLen → Fin inLen → ℝ :=
  fun b o j => ∑ d, A.projectInput input_ b o d * context b j d

/-- src/lib/nn/attention.py lines 63-66: the Python local `attention_weights`,
softmax over each length-input_len row of the scores (the reshape to
(batch_size * output_len, input_len) and back is an identity on indexing). -/
noncomputable def Attention.attentionWeights {dims batch outLen inLen : ℕ}
    (A : Attention dims)
    (input_ : Fin batch → Fin outLen → Fin dims → ℝ)
    (context : Fin batch → Fin inLen → Fin dims → ℝ) :
    Fin batch → Fin outLen → Fin inLen → ℝ :=
  fun b o j => Real.exp (A.attentionScores input_ context b o j) /
    ∑ j2, Real.exp (A.attentionScores input_ context b o j2)

/-- src/lib/nn/attention.py line 70: the Python local `mix`,
`torch.bmm(attention_weights, context)`. -/
noncomputable def Attention.mix {dims batch outLen inLen : ℕ} (A : Attention dims)
    (input_ : Fin batch → Fin outLen → Fin dims → ℝ)
    (context : Fin batch → Fin inLen → Fin dims → ℝ) :
    Fin batch → Fin outLen → Fin dims → ℝ :=
  fun b o d => ∑ j, A.attentionWeights input_ context b o j * context b j d

/-- src/lib/nn/attention.py lines 73-74: the Python local `combined`,
`torch.cat((mix, input_), dim=2)`. Note the Python name `input_` was
reassigned at lines 53-55, so the second block is the PROJECTED input when
attention_type is "general". -/
noncomputable def Attention.combined {dims batch outLen inLen : ℕ} (A : Attention dims)
    (input_ : Fin batch → Fin outLen → Fin dims → ℝ)
    (context : Fin batch → Fin inLen → Fin dims → ℝ) :
    Fin batch → Fin outLen → (Fin dims ⊕ Fin dims) → ℝ :=
  fun b o => Sum.elim (A.mix input_ context b o) (A.projectInput input_ b o)

/-- src/lib/nn/attention.py lines 78-79: the Python local `output`,
`self.tanh(self.linear_out(combined))`. -/
noncomputable def Attention.outputTensor {dims batch outLen inLen : ℕ} (A : Attention dims)
    (input_ : Fin batch → Fin outLen → Fin dims → ℝ)
    (context : Fin batch → Fin inLen → Fin dims → ℝ) :
    Fin batch → Fin outLen → Fin dims → ℝ :=
  fun b o d => Real.tanh (∑ e, A.linear_out d e * A.combined input_ context b o e)

/-- src/lib/nn/attention.py lines 37-81, Attention.forward (mask None):
returns the pair (output, attention_weights) of line 81. -/
noncomputable def Attention.forward {dims batch outLen inLen : ℕ} (A : Attention dims)
    (input_ : Fin batch → Fin outLen → Fin dims → ℝ)
    (context : Fin batch → Fin inLen → Fin dims → ℝ) :
    (Fin batch → Fin outLen → Fin dims → ℝ) × (Fin batch → Fin outLen → Fin inLen → ℝ) :=
  (A.outputTensor input_ context, A.attentionWeights input_ context)

/-- Modelled from the spec for C1: a "scaled dot-product" alignment score in
its standard meaning, the dot product of the (possibly pre-projected) input
vector with the context vector divided by the square root of the feature
dimension. -/
noncomputable def specScaledDotScore {dims batch outLen inLen : ℕ} (A : Attention dims)
    (input_ : Fin batch → Fin outLen → Fin dims → ℝ)
    (context : Fin batch → Fin inLen → Fin dims → ℝ) :
    Fin batch → Fin outLen → Fin inLen → ℝ :=
  fun b o j =>
    (∑ d, A.projectInput input_ b o d * context b j d) / Real.sqrt (dims : ℝ)

/-- Stated from the claim wording for C2: a forward pass that concatenates the
softmax-weighted mixture with the ORIGINAL (unprojected) input before the
final linear_out and tanh. -/
noncomputable def Attention.forwardSpecOriginalInput {dims batch outLen inLen : ℕ}
    (A : Attention dims)
    (input_ : Fin batch → Fin outLen → Fin dims → ℝ)
    (context : Fin batch → Fin inLen → Fin dims → ℝ) :
    (Fin batch → Fin outLen → Fin dims → ℝ) × (Fin batch → Fin outLen → Fin inLen → ℝ) :=
  (fun b o d => Real.tanh (∑ e, A.linear_out d e *
      Sum.elim (A.mix input_ context b o) (input_ b o) e),
   A.attentionWeights input_ context)

lemma le_foldr_max (l : List ℕ) : ∀ x ∈ l, x ≤ l.foldr max 0 := by
  induction l with
  | nil => simp
  | cons a t ih =>
    intro x hx
    rcases List.mem_cons.mp hx with rfl | hx
    · exact le_max_left _ _
    · exact (ih x hx).trans (le_max_right _ _)

lemma encodeRow_keys {V : Type} (te le : V → V) (r : List (String × V)) :
    (encodeRow te le r).map Prod.fst = r.map Prod.fst := by
  unfold encodeRow
  rw [List.map_map]
  apply List.map_congr_left
  intro kv _
  by_cases h1 : kv.1 = "text"
  · simp [Function.comp, h1]
  · by_cases h2 : kv.1 = "label" <;> simp [Function.comp, h1, h2]

lemma lookup_cons_eq_ite {V : Type} (key k : String) (v : V) (t : List (String × V)) :
    ((k, v) :: t).lookup key = if key = k then some v else t.lookup key := by
  rw [List.lookup_cons]
  by_cases h : key = k
  · simp [h]
  · simp [beq_eq_false_iff_ne.mpr h, h]

lemma encodeRow_cons {V : Type} (te le : V → V) (k : String) (v : V)
    (t : List (String × V)) :
    encodeRow te le ((k, v) :: t) =
      (if k = "text" then (k, te v)
       else if k = "label" then (k, le v) else (k, v)) :: encodeRow te le t := rfl

lemma encodeRow_lookup_text {V : Type} (te le : V → V) (r : List (String × V)) :
    (encodeRow te le r).lookup "text" = (r.lookup "text").map te := by
  induction r with
  | nil => rfl
  | cons kv t ih =>
    obtain ⟨k, v⟩ := kv
    rw [encodeRow_cons]
    by_cases h1 : k = "text"
    · subst h1
      simp [lookup_cons_eq_ite]
    · by_cases h2 : k = "label"
      · subst h2
        simpa [lookup_cons_eq_ite] using ih
      · simpa [h1, h2, lookup_cons_eq_ite, Ne.symm h1] using ih

lemma encodeRow_lookup_label {V : Type} (te le : V → V) (r : List (String × V)) :
    (encodeRow te le r).lookup "label" = (r.lookup "label").map le := by
  induction r with
  | nil => rfl
  | cons kv t ih =>
    obtain ⟨k, v⟩ := kv
    rw [encodeRow_cons]
    by_cases h1 : k = "text"
    · subst h1
      simpa [lookup_cons_eq_ite] using ih
    · by_cases h2 : k = "label"
      · subst h2
        simp [h1, lookup_cons_eq_ite]
      · simpa [h1, h2, lookup_cons_eq_ite, Ne.symm h2] using ih

lemma encodeRow_mem_iff {V : Type} (te le : V → V) (r : List (String × V))
    (k : String) (v : V) (h1 : k ≠ "text") (h2 : k ≠ "label") :
    ((k, v) ∈ encodeRow te le r) ↔ (k, v) ∈ r := by
  unfold encodeRow
  rw [List.mem_map]
  constructor
  · rintro ⟨⟨k0, v0⟩, hmem, heq⟩
    by_cases hk1 : k0 = "text"
    · subst hk1
      simp only [Prod.mk.injEq] at heq
      simp at heq
      exact absurd heq.1.symm h1
    · by_cases hk2 : k0 = "label"
      · subst hk2
        simp at heq
        exact absurd heq.1.symm h2
      · simp [hk1, hk2, Prod.mk.injEq] at heq
        obtain ⟨rfl, rfl⟩ := heq
        exact hmem
  · intro hmem
    exact ⟨(k, v), hmem, by simp [h1, h2]⟩

/-- Claim C3: constructing Attention raises exactly when attention_type is
neither "dot" nor "general"; for "dot" or "general" construction succeeds, and
the failure is the ordinary assertion error surfaced directly to the caller. -/
theorem attention_init_raises_iff (dimensions : ℕ) (t : String) :
    ((∃ u, Attention.init dimensions t = Except.ok u) ↔ (t = "dot" ∨ t = "general")) ∧
    ((∃ msg, Attention.init dimensions t = Except.error msg) ↔
      (t ≠ "dot" ∧ t ≠ "general")) := by
  by_cases h : t = "dot" ∨ t = "general" <;>
    constructor <;> simp [Attention.init, h] <;> tauto

/-- Claim C5: for a non-empty batch, pad_batch extends every tensor with
PADDING_INDEX entries to exactly the maximum input length and returns the
original lengths in input order. -/
theorem pad_batch_pads_to_max (batch : List (List ℤ)) (h : batch ≠ []) :
    pad_batch batch =
      some (batch.map
              (fun row => row ++ List.replicate (maxLen batch - row.length) PADDING_INDEX),
            batch.map List.length) ∧
    ∀ row ∈ batch, row.length ≤ maxLen batch ∧
      (row ++ List.replicate (maxLen batch - row.length) PADDING_INDEX).length =
        maxLen batch := by
  obtain ⟨b, bs, rfl⟩ : ∃ b bs, batch = b :: bs := by
    cases batch with
    | nil => exact absurd rfl h
    | cons b bs => exact ⟨b, bs, rfl⟩
  refine ⟨rfl, fun row hrow => ?_⟩
  have hle : row.length ≤ maxLen (b :: bs) :=
    le_foldr_max _ _ (List.mem_map_of_mem List.length hrow)
  refine ⟨hle, ?_⟩
  simp only [List.length_append, List.length_replicate]
  omega

/-- Witness for C5 at the concrete batch [[5], [7, 8]]. -/
theorem pad_batch_pads_to_max_witness :
    ([[(5 : ℤ)], [7, 8]] : List (List ℤ)) ≠ [] ∧
    (pad_batch [[5], [7, 8]] =
      some (([[(5 : ℤ)], [7, 8]] : List (List ℤ)).map
              (fun row =>
                row ++ List.replicate (maxLen [[5], [7, 8]] - row.length) PADDING_INDEX),
            ([[(5 : ℤ)], [7, 8]] : List (List ℤ)).map List.length) ∧
    ∀ row ∈ ([[(5 : ℤ)], [7, 8]] : List (List ℤ)),
      row.length ≤ maxLen [[5], [7, 8]] ∧
      (row ++ List.replicate (maxLen [[5], [7, 8]] - row.length) PADDING_INDEX).length =
        maxLen [[5], [7, 8]]) :=
  ⟨by decide, pad_batch_pads_to_max [[5], [7, 8]] (by decide)⟩

/-- Claim C8: the encoding phase replaces exactly the text and label fields of
every row with their encoded values; the number of rows, their order, the key
set and key order of every row, and the value at every other key are
unchanged. -/
theorem encode_phase_frame {V : Type} (te le : V → V)
    (ds : List (List (String × V))) :
    (encodeDataset te le ds).length = ds.length ∧
    List.Forall₂ (fun r' r =>
        r'.map Prod.fst = r.map Prod.fst ∧
        r'.lookup "text" = (r.lookup "text").map te ∧
        r'.lookup "label" = (r.lookup "label").map le ∧
        ∀ k v, k ≠ "text" → k ≠ "label" → (((k, v) ∈ r') ↔ (k, v) ∈ r))
      (encodeDataset te le ds) ds := by
  constructor
  · simp [encodeDataset]
  · unfold encodeDataset
    rw [List.forall₂_map_left_iff]
    refine List.forall₂_same.mpr (fun r _ => ?_)
    exact ⟨encodeRow_keys te le r, encodeRow_lookup_text te le r,
           encodeRow_lookup_label te le r,
           fun k v h1 h2 => encodeRow_mem_iff te le r k v h1 h2⟩

/-- Witness for C8 at a concrete one-row dataset with an extra id key. -/
theorem encode_phase_frame_witness :
    (encodeDataset (fun n => n + 10) (fun n => n * 2)
        [[("text", 1), ("label", 2), ("id", 3)]]).length =
      ([[("text", (1 : ℕ)), ("label", 2), ("id", 3)]] :
        List (List (String × ℕ))).length ∧
    List.Forall₂ (fun r' r =>
        r'.map Prod.fst = r.map Prod.fst ∧
        r'.lookup "text" = (r.lookup "text").map (fun n => n + 10) ∧
        r'.lookup "label" = (r.lookup "label").map (fun n => n * 2) ∧
        ∀ k v, k ≠ "text" → k ≠ "label" → (((k, v) ∈ r') ↔ (k, v) ∈ r))
      (encodeDataset (fun n => n + 10) (fun n => n * 2)
        [[("text", 1), ("label", 2), ("id", 3)]])
      [[("text", (1 : ℕ)), ("label", 2), ("id", 3)]] :=
  encode_phase_frame (fun n => n + 10) (fun n => n * 2)
    [[("text", 1), ("label", 2), ("id", 3)]]

/-- Claim C9: resplit_datasets with a fixed (supplied) random_seed is
deterministic - the fresh `random.Random(random_seed)` state depends only on
the seed, so two calls with the same datasets, seed and cut return identical
pairs whatever ambient entropy each call sees. -/
theorem resplit_datasets_deterministic {α : Type} (dataset other_dataset : List α)
    (s : ℤ) (cut : Option ℚ) (entropy₁ entropy₂ : ℕ) :
    resplit_datasets dataset other_dataset (some s) cut entropy₁ =
      resplit_datasets dataset other_dataset (some s) cut entropy₂ := rfl

/-- Claim C10: zero_to_zero returns a single Dataset when exactly one of
train/dev/test is requested and a tuple in (train, dev, test) order otherwise
(the empty tuple when none), each dataset holding exactly the requested number
of rows, every row being the source=0, target=0 pair. -/
theorem zero_to_zero_matches_spec (train dev test : Bool)
    (train_rows dev_rows test_rows seq_max_length : ℕ) :
    zero_to_zero train dev test train_rows dev_rows test_rows seq_max_length =
      zeroToZeroSpec train dev test train_rows dev_rows test_rows := by
  cases train <;> cases dev <;> cases test <;> rfl

lemma flatten_map_range_decomp {α : Type} (f : ℕ → List α) :
    ∀ n e, e < n → ∃ L R, ((List.range n).map f).flatten = L ++ (f e ++ R) := by
  intro n
  induction n with
  | zero => intro e he; omega
  | succ m ih =>
    intro e he
    rw [List.range_succ, List.map_append, List.flatten_append]
    rcases Nat.lt_or_ge e m with h | h
    · obtain ⟨L, R, hLR⟩ := ih e h
      exact ⟨L, R ++ ([f m] : List (List α)).flatten, by rw [hLR]; simp⟩
    · have hem : e = m := by omega
      subst hem
      exact ⟨((List.range e).map f).flatten, [], by simp⟩

lemma sublist_of_decomp {α : Type} (L M R : List α) : M.Sublist (L ++ (M ++ R)) :=
  (List.sublist_append_left M R).trans (List.sublist_append_right L (M ++ R))

lemma sum_map_range_indicator (e : ℕ) :
    ∀ n, ((List.range n).map (fun x => if x = e then 1 else 0)).sum =
      if e < n then 1 else 0 := by
  intro n
  induction n with
  | zero => simp
  | succ m ih =>
    rw [List.range_succ, List.map_append, List.sum_append, ih]
    rcases Nat.lt_trichotomy e m with h | h | h
    · have h1 : e < m + 1 := by omega
      have h2 : ¬(m = e) := by omega
      simp [h, h1, h2]
    · subst h
      simp
    · have h1 : ¬(e < m) := by omega
      have h2 : ¬(m = e) := by omega
      have h3 : ¬(e < m + 1) := by omega
      simp [h1, h2, h3]

lemma countP_batchEvents_save (e' i e : ℕ) :
    (batchEvents e' i).countP (fun x => x = TrainEvent.saveCheckpoint e) = 0 := by
  simp [batchEvents]

lemma countP_epochTrace_save (nBatches : ℕ → ℕ) (e' e : ℕ) :
    (epochTrace nBatches e').countP (fun x => x = TrainEvent.saveCheckpoint e) =
      if e' = e then 1 else 0 := by
  unfold epochTrace
  rw [List.countP_append, List.countP_flatten, List.map_map]
  have h1 : ((List.range (nBatches e')).map
      (List.countP (fun x => decide (x = TrainEvent.saveCheckpoint e)) ∘
        batchEvents e')).sum = 0 := by
    apply List.sum_eq_zero
    intro x hx
    obtain ⟨i, _, rfl⟩ := List.mem_map.mp hx
    exact countP_batchEvents_save e' i e
  rw [h1, Nat.zero_add]
  by_cases h : e' = e
  · subst h
    simp
  · simp [h]

/-- Claim C6: in every epoch of train(), each training batch runs zero_grad,
forward, loss, backward, optimizer step in that order, and exactly one
checkpoint is saved per epoch - after all of the training batches of that
epoch and before the evaluation on the development split. -/
theorem train_loop_order_and_one_checkpoint_per_epoch
    (epochs : ℕ) (nBatches : ℕ → ℕ) (e i : ℕ)
    (he : e < epochs) (hi : i < nBatches e) :
    (trainTrace epochs nBatches).countP
        (fun x => x = TrainEvent.saveCheckpoint e) = 1 ∧
    (batchEvents e i ++
        [TrainEvent.saveCheckpoint e, TrainEvent.evaluateDev e]).Sublist
      (trainTrace epochs nBatches) := by
  constructor
  · unfold trainTrace
    rw [List.countP_flatten, List.map_map]
    have hcong : (List.range epochs).map
        (List.countP (fun x => decide (x = TrainEvent.saveCheckpoint e)) ∘
          epochTrace nBatches) =
        (List.range epochs).map (fun x => if x = e then 1 else 0) := by
      apply List.map_congr_left
      intro e' _
      exact countP_epochTrace_save nBatches e' e
    rw [hcong, sum_map_range_indicator, if_pos he]
  · obtain ⟨L, R, hLR⟩ :=
      flatten_map_range_decomp (batchEvents e) (nBatches e) i hi
    have h1 : (batchEvents e i ++
        [TrainEvent.saveCheckpoint e, TrainEvent.evaluateDev e]).Sublist
        (epochTrace nBatches e) := by
      unfold epochTrace
      rw [hLR]
      exact List.Sublist.append (sublist_of_decomp L _ R) (List.Sublist.refl _)
    obtain ⟨L', R', hLR'⟩ :=
      flatten_map_range_decomp (epochTrace nBatches) epochs e he
    have h2 : (epochTrace nBatches e).Sublist (trainTrace epochs nBatches) := by
      unfold trainTrace
      rw [hLR']
      exact sublist_of_decomp L' _ R'
    exact h1.trans h2

/-- Witness for C6 at one epoch with one batch. -/
theorem train_loop_order_witness :
    ((0 : ℕ) < 1 ∧ (0 : ℕ) < (fun _ : ℕ => 1) 0) ∧
    ((trainTrace 1 (fun _ => 1)).countP
        (fun x => x = TrainEvent.saveCheckpoint 0) = 1 ∧
     (batchEvents 0 0 ++
        [TrainEvent.saveCheckpoint 0, TrainEvent.evaluateDev 0]).Sublist
       (trainTrace 1 (fun _ => 1))) :=
  ⟨⟨by decide, by decide⟩,
   train_loop_order_and_one_checkpoint_per_epoch 1 (fun _ => 1) 0 0
     (by decide) (by decide)⟩

/-- Claim C4: with mask None, every row of the attention_weights tensor
returned by Attention.forward - the input_len weights of each (batch, output
position) pair - sums to 1 (the context length being positive). -/
theorem forward_weights_row_sums_to_one {dims batch outLen inLen : ℕ}
    (A : Attention dims)
    (input_ : Fin batch → Fin outLen → Fin dims → ℝ)
    (context : Fin batch → Fin inLen → Fin dims → ℝ)
    (h : 0 < inLen) (b : Fin batch) (o : Fin outLen) :
    ∑ j, (A.forward input_ context).2 b o j = 1 := by
  have hne : Nonempty (Fin inLen) := Fin.pos_iff_nonempty.mp h
  have hpos : 0 < ∑ j2, Real.exp (A.attentionScores input_ context b o j2) :=
    Finset.sum_pos (fun i _ => Real.exp_pos _) Finset.univ_nonempty
  have hform : ∀ j, (A.forward input_ context).2 b o j =
      Real.exp (A.attentionScores input_ context b o j) /
        ∑ j2, Real.exp (A.attentionScores input_ context b o j2) := fun j => rfl
  calc ∑ j, (A.forward input_ context).2 b o j
      = ∑ j, Real.exp (A.attentionScores input_ context b o j) /
          ∑ j2, Real.exp (A.attentionScores input_ context b o j2) :=
        Finset.sum_congr rfl (fun j _ => hform j)
    _ = (∑ j, Real.exp (A.attentionScores input_ context b o j)) /
          ∑ j2, Real.exp (A.attentionScores input_ context b o j2) := by
        rw [Finset.sum_div]
    _ = 1 := div_self (ne_of_gt hpos)

/-- A concrete dot-type Attention module of dimension 1, for witnesses. -/
noncomputable def attnDotOne : Attention 1 :=
  ⟨"dot", fun _ _ => 0, fun _ _ => 0⟩

/-- A concrete all-zero 1 x 1 x 1 tensor, for witnesses. -/
noncomputable def zeroTensorOne : Fin 1 → Fin 1 → Fin 1 → ℝ := fun _ _ _ => 0

/-- Witness for C4 at a concrete module and tensors. -/
theorem forward_weights_row_sums_to_one_witness :
    (0 : ℕ) < 1 ∧
    ∑ j, (attnDotOne.forward zeroTensorOne zeroTensorOne).2 0 0 j = 1 :=
  ⟨by decide,
   forward_weights_row_sums_to_one attnDotOne zeroTensorOne zeroTensorOne
     (by decide) 0 0⟩

/-- Claim C7: the training script CLI accepts exactly one argument,
--checkpoint_path (default None); when a checkpoint path is supplied, the save
directory becomes the directory of that checkpoint, and the model and both
encoders come from the loaded checkpoint instead of fresh initialization. -/
theorem cli_single_arg_and_resume {M E : Type} (load : String → Checkpoint M E)
    (defaultDir : String) (p : String) (hp : p ≠ "")
    (freshModel : M) (freshText freshLabel : E) :
    cliArgSpecs = [("--checkpoint_path", (none : Option String))] ∧
    mainSaveDirectory defaultDir (some p) = dirname p ∧
    setup_training load (some p) = some (load p) ∧
    selectModel (setup_training load (some p)) freshModel = (load p).model ∧
    selectEncoders (setup_training load (some p)) freshText freshLabel =
      ((load p).input_encoder, (load p).output_encoder) := by
  refine ⟨rfl, ?_, rfl, rfl, rfl⟩
  simp [mainSaveDirectory, hp]

/-- A concrete checkpoint over ℕ-coded model and encoders, for witnesses. -/
def ckEx : Checkpoint ℕ ℕ := ⟨0, 1, 2⟩

/-- A concrete loader returning `ckEx` for every path, for witnesses. -/
def loadEx : String → Checkpoint ℕ ℕ := fun _ => ckEx

/-- Witness for C7 at a concrete path and loader. -/
theorem cli_single_arg_and_resume_witness :
    ("save/run/ck.pt" : String) ≠ "" ∧
    (cliArgSpecs = [("--checkpoint_path", (none : Option String))] ∧
     mainSaveDirectory "save/default" (some "save/run/ck.pt") =
       dirname "save/run/ck.pt" ∧
     setup_training loadEx (some "save/run/ck.pt") =
       some (loadEx "save/run/ck.pt") ∧
     selectModel (setup_training loadEx (some "save/run/ck.pt")) 7 =
       (loadEx "save/run/ck.pt").model ∧
     selectEncoders (setup_training loadEx (some "save/run/ck.pt")) 8 9 =
       ((loadEx "save/run/ck.pt").input_encoder,
        (loadEx "save/run/ck.pt").output_encoder)) :=
  ⟨by decide,
   cli_single_arg_and_resume loadEx "save/default" "save/run/ck.pt"
     (by decide) 7 8 9⟩

/-- Claim C1 (amended): the pre-normalization alignment score of
Attention.forward is the PLAIN (unscaled) dot product of the input vector -
pre-projected by linear_in exactly when attention_type is "general" - with the
corresponding context vector; the returned weights are its row softmax. -/
theorem attention_scores_plain_dot {dims batch outLen inLen : ℕ}
    (A : Attention dims)
    (input_ : Fin batch → Fin outLen → Fin dims → ℝ)
    (context : Fin batch → Fin inLen → Fin dims → ℝ)
    (b : Fin batch) (o : Fin outLen) (j : Fin inLen) :
    A.attentionScores input_ context b o j =
      Matrix.dotProduct (A.projectInput input_ b o) (fun d => context b j d) ∧
    A.projectInput input_ b o =
      (if A.attention_type = "general" then
        fun d => ∑ k, A.linear_in d k * input_ b o k
      else input_ b o) ∧
    (A.forward input_ context).2 b o j =
      Real.exp (A.attentionScores input_ context b o j) /
        ∑ j2, Real.exp (A.attentionScores input_ context b o j2) := by
  refine ⟨rfl, ?_, rfl⟩
  unfold Attention.projectInput
  split <;> rfl

/-- A concrete dot-type Attention module of dimension 4, for the C1
counterexample. -/
noncomputable def attnDotFour : Attention 4 :=
  ⟨"dot", fun _ _ => 0, fun _ _ => 0⟩

/-- A concrete all-ones 1 x 1 x 4 tensor, for the C1 counterexample. -/
noncomputable def onesTensorFour : Fin 1 → Fin 1 → Fin 4 → ℝ := fun _ _ _ => 1

/-- Counterexample for C1 as stated: at attention_type "dot" with all-ones
input and context of dimension 4, the code computes score 4, while a scaled
dot product is 4 / sqrt 4 = 2. -/
theorem attention_score_not_scaled_counterexample :
    attnDotFour.attentionScores onesTensorFour onesTensorFour 0 0 0 ≠
      specScaledDotScore attnDotFour onesTensorFour onesTensorFour 0 0 0 := by
  have hdotgen : ¬(("dot" : String) = "general") := by decide
  have hL : attnDotFour.attentionScores onesTensorFour onesTensorFour 0 0 0 = 4 := by
    norm_num [Attention.attentionScores, Attention.projectInput, attnDotFour,
      onesTensorFour, Fin.sum_univ_four, hdotgen]
  have hR : specScaledDotScore attnDotFour onesTensorFour onesTensorFour 0 0 0 = 2 := by
    unfold specScaledDotScore
    rw [show ((4 : ℕ) : ℝ) = (2 : ℝ) ^ 2 by norm_num,
      Real.sqrt_sq (by norm_num : (0 : ℝ) ≤ 2)]
    norm_num [Attention.projectInput, attnDotFour, onesTensorFour,
      Fin.sum_univ_four, hdotgen]
  rw [hL, hR]
  norm_num

/-- Claim C2 (amended): Attention.forward concatenates the softmax-weighted
mixture with the input as used for scoring - the linear_in-projected input
when attention_type is "general", the original input otherwise - applies
linear_out then tanh, and returns that output with the attention weights. -/
theorem forward_concatenates_scoring_input {dims batch outLen inLen : ℕ}
    (A : Attention dims)
    (input_ : Fin batch → Fin outLen → Fin dims → ℝ)
    (context : Fin batch → Fin inLen → Fin dims → ℝ) :
    A.forward input_ context =
      (if A.attention_type = "general" then
        (fun b o d => Real.tanh (∑ e, A.linear_out d e *
            Sum.elim (A.mix input_ context b o)
              (fun dd => ∑ k, A.linear_in dd k * input_ b o k) e),
         A.attentionWeights input_ context)
      else A.forwardSpecOriginalInput input_ context) := by
  by_cases h : A.attention_type = "general"
  · rw [if_pos h]
    have hproj : A.projectInput input_ =
        fun b o d => ∑ k, A.linear_in d k * input_ b o k := by
      unfold Attention.projectInput
      rw [if_pos h]
    refine Prod.ext_iff.mpr ⟨?_, rfl⟩
    funext b o d
    simp only [Attention.forward, Attention.outputTensor, Attention.combined, hproj]
  · rw [if_neg h]
    have hproj : A.projectInput input_ = input_ := by
      unfold Attention.projectInput
      rw [if_neg h]
    refine Prod.ext_iff.mpr ⟨?_, rfl⟩
    funext b o d
    simp only [Attention.forward, Attention.forwardSpecOriginalInput,
      Attention.outputTensor, Attention.combined, hproj]

/-- A concrete general-type Attention module of dimension 1 whose linear_in is
zero and whose linear_out reads only the concatenated input block, for the C2
counterexample. -/
noncomputable def attnGeneralOne : Attention 1 :=
  ⟨"general", fun _ _ => 0, fun _ => Sum.elim (fun _ => 0) (fun _ => 1)⟩

/-- A concrete all-threes 1 x 1 x 1 tensor, for the C2 counterexample. -/
noncomputable def threesTensorOne : Fin 1 → Fin 1 → Fin 1 → ℝ := fun _ _ _ => 3

/-- A concrete all-fives 1 x 1 x 1 tensor, for the C2 counterexample. -/
noncomputable def fivesTensorOne : Fin 1 → Fin 1 → Fin 1 → ℝ := fun _ _ _ => 5

/-- Counterexample for C2 as stated: with attention_type "general", zero
linear_in and a linear_out reading only the concatenated input block, the code
outputs tanh 0 = 0 (the PROJECTED input was concatenated), while concatenating
the original input as claimed would output tanh 3 ≠ 0. -/
theorem forward_not_original_input_counterexample :
    (attnGeneralOne.forward threesTensorOne fivesTensorOne).1 0 0 0 ≠
      (attnGeneralOne.forwardSpecOriginalInput threesTensorOne fivesTensorOne).1
        0 0 0 := by
  have hL : (attnGeneralOne.forward threesTensorOne fivesTensorOne).1 0 0 0 =
      Real.tanh 0 := by
    simp [Attention.forward, Attention.outputTensor, Attention.combined,
      Attention.projectInput, attnGeneralOne, threesTensorOne,
      Fintype.sum_sum_type]
  have hR : (attnGeneralOne.forwardSpecOriginalInput threesTensorOne
      fivesTensorOne).1 0 0 0 = Real.tanh 3 := by
    simp [Attention.forwardSpecOriginalInput, attnGeneralOne, threesTensorOne,
      Fintype.sum_sum_type]
  have h3 : 0 < Real.tanh 3 := by
    rw [Real.tanh_eq_sinh_div_cosh]
    exact div_pos (Real.sinh_pos_iff.mpr (by norm_num)) (Real.cosh_pos 3)
  rw [hL, hR, Real.tanh_zero]
  exact ne_of_lt h3

end SimpleQA
